import Mathlib

/-!
Shallow embedding of the PAP server session engine
(`server/src/session.c`, current documented revision: `recv_exact`,
`recv_path_alloc`, `send_all`, `path_basename`, `expand_tilde`,
`ensure_parent_dirs`, `handle_download`, `handle_upload`, `handle_list`,
`handle_unlocked_session`).

Byte buffers are `List Nat` (each element one octet).  A connection is
modelled by the byte stream still readable from the client, the list of
chunks passed to `send_all` so far (in order), and an oracle saying
whether the i-th `send_all` call on the connection fails (returns <= 0).
The filesystem, the identity resolver (`getpwnam`) and the `HOME`
environment variable are collaborator parameters.
-/

namespace PAP

/-- Interpretation of a received byte buffer as a C string: the bytes
before the first NUL.  `recv_path_alloc` NUL-terminates the payload, so
every later use of it (`strncpy`, `expand_tilde`, `fopen`, `opendir`,
`strrchr`) sees only this prefix. -/
def cstr (bs : List Nat) : List Nat := bs.takeWhile (fun b => b != 0)

/-- Big-endian 4-byte encoding of an unsigned 32-bit value, as produced
by `htonl` followed by a 4-byte store (used for length prefixes). -/
def beEncode (n : Nat) : List Nat :=
  [n / 16777216 % 256, n / 65536 % 256, n / 256 % 256, n % 256]

/-- Value of four received bytes reinterpreted as an unsigned big-endian
32-bit integer (`ntohl` of the stored `uint32_t`). -/
def beDecode (bs : List Nat) : Nat :=
  match bs with
  | [a, b, c, d] => ((a % 256 * 256 + b % 256) * 256 + c % 256) * 256 + d % 256
  | _ => 0

/-- State of one client connection.
`input` is the byte stream the client will still deliver before closing
its write side; `sent` records the payload of every `send_all` call
attempted so far, oldest first; `failAt i` says whether the i-th
`send_all` call on this connection fails (`send` returns <= 0). -/
structure Conn where
  input : List Nat
  sent : List (List Nat)
  failAt : Nat → Bool

/-- `send_all(fd, buf, len)` (session.c): loops over `send` until all
bytes are out; result <= 0 on socket failure.  The model records the
attempted chunk and reports success according to the failure oracle. -/
def send_all (c : Conn) (bs : List Nat) : Conn × Bool :=
  ({ c with sent := c.sent ++ [bs] }, !(c.failAt c.sent.length))

/-- `recv_exact(fd, buf, len)` (session.c): loops over `recv` until
exactly `len` bytes arrived; returns <= 0 if the peer closes or the
socket fails first.  The model fails iff the remaining stream is shorter
than `len`, and otherwise consumes exactly `len` bytes. -/
def recv_exact (c : Conn) (len : Nat) : Option (List Nat × Conn) :=
  if c.input.length < len then none
  else some (c.input.take len, { c with input := c.input.drop len })

/-- `recv_path_alloc(fd)` (session.c): reads a 4-byte big-endian length
`L`, rejects `L = 0` and `L > 4096`, then reads exactly `L` payload
bytes and NUL-terminates them.  Returns `none` exactly when the C
function returns `NULL` (malloc failure is not modelled). -/
def recv_path_alloc (c : Conn) : Option (List Nat × Conn) :=
  (recv_exact c 4).bind fun hc =>
    let len := beDecode hc.1
    if len = 0 ∨ len > 4096 then none
    else recv_exact hc.2 len

/-- `path_basename(path)` (session.c): `strrchr(path, '/')`; the suffix
after the last slash (byte 47), or the whole string if there is none. -/
def path_basename (path : List Nat) : List Nat :=
  (path.reverse.takeWhile (fun b => b != 47)).reverse

/-- Collaborators of tilde expansion: the identity resolver
(`getpwnam`, mapping a username to its home directory) and the `HOME`
environment variable (`getenv("HOME")`). -/
structure Env where
  pwdb : List Nat → Option (List Nat)
  homeEnv : Option (List Nat)

/-- `expand_tilde(path)` (session.c).  `cu` is the value of the
process-global `current_username` buffer at call time.  Byte 126 is
`~`, byte 47 is `/`; `[47,114,111,111,116]` is `"/root"`. -/
def expand_tilde (env : Env) (cu : List Nat) (path : List Nat) : List Nat :=
  if path.head? = some 126 then
    let rest := path.tail
    if rest = [] ∨ rest.head? = some 47 then
      -- "~" or "~/...": authenticated user, then $HOME, then "/root"
      let home :=
        ((if cu ≠ [] then env.pwdb cu else none) <|> env.homeEnv).getD
          [47, 114, 111, 111, 116]
      home ++ rest
    else
      -- "~username" or "~username/...": split at the first slash
      let userlen := (rest.findIdx? (fun b => b == 47)).getD rest.length
      if userlen < 256 then
        (env.pwdb (rest.take userlen)).elim path
          (fun h => h ++ rest.drop userlen)
      else path
  else path

/-- `ensure_parent_dirs(path)` (session.c): rejects paths of length
>= 4097 (the local buffer size), then for every slash position `i >= 1`
requires `mkdir` of the prefix before it to succeed (`mkdirOk` is true
when `mkdir` succeeds or fails with `EEXIST`). -/
def ensure_parent_dirs (mkdirOk : List Nat → Bool) (path : List Nat) : Bool :=
  if 4097 ≤ path.length then false
  else (List.range path.length).all fun i =>
    if 1 ≤ i ∧ path.get? i = some 47 then mkdirOk (path.take i) else true

/-- BUFFER_SIZE-sized chunking of a file: the successive values returned
by `fread(buffer, 1, 4096, f)` until end of file. -/
def chunksBuf (l : List Nat) : List (List Nat) :=
  if h : l = [] then [] else l.take 4096 :: chunksBuf (l.drop 4096)
termination_by l.length
decreasing_by
  have hp : 0 < l.length := List.length_pos.mpr h
  simp [List.length_drop]
  omega

/-- The download streaming loop (session.c, `handle_download` step 6):
send each chunk with `send_all`, returning -1 as soon as one fails. -/
def sendFileChunks (c : Conn) (chunks : List (List Nat)) : Conn × Int :=
  match chunks with
  | [] => (c, 0)
  | b :: rest =>
    let r := send_all c b
    if r.2 then sendFileChunks r.1 rest else (r.1, -1)

/-- `handle_download(client_fd)` (session.c).  `openRead p` is the
contents of the file at path `p` when `fopen(p, "rb")` succeeds, `none`
when it fails.  Status bytes: `[0]` is STATUS_OK, `[1]` is
STATUS_ERROR. -/
def handle_download (env : Env) (cu : List Nat)
    (openRead : List Nat → Option (List Nat)) (c : Conn) : Conn × Int :=
  (recv_path_alloc c).elim (c, -1) fun pc =>
    let c1 := pc.2
    let expanded := expand_tilde env cu (cstr pc.1)
    let name := path_basename expanded
    if 4096 ≤ name.length then
      -- "Filename too long.": ERROR status, result of the send ignored
      ((send_all c1 [1]).1, -1)
    else
      (openRead expanded).elim ((send_all c1 [1]).1, -1) fun contents =>
        let r0 := send_all c1 [0]
        if r0.2 then
          let r1 := send_all r0.1 (beEncode name.length)
          if r1.2 then
            let r2 := send_all r1.1 name
            if r2.2 then sendFileChunks r2.1 (chunksBuf contents)
            else (r2.1, -1)
          else (r1.1, -1)
        else (r0.1, -1)

/-- `handle_upload(client_fd)` (session.c).  `mkdirOk` is the `mkdir`
collaborator of `ensure_parent_dirs`; `openWrite p` says whether
`fopen(p, "wb")` succeeds.  The middle component of the result is the
byte content written to the target file (`none` when no file was
created).  After the OK status byte — whose send result the code
ignores — the whole remaining client stream is received in chunks and
written to the file until the client closes its side. -/
def handle_upload (env : Env) (cu : List Nat) (mkdirOk : List Nat → Bool)
    (openWrite : List Nat → Bool) (c : Conn) : Conn × Option (List Nat) × Int :=
  (recv_path_alloc c).elim (c, none, -1) fun pc =>
    let c1 := pc.2
    let expanded := expand_tilde env cu (cstr pc.1)
    if ensure_parent_dirs mkdirOk expanded = false then
      -- mkdir failure: return -1 with no status byte sent
      (c1, none, -1)
    else if openWrite expanded = false then
      ((send_all c1 [1]).1, none, -1)
    else
      let c2 := (send_all c1 [0]).1
      ({ c2 with input := [] }, some c2.input, 0)

/-- The list-mode entry loop (session.c, `handle_list` steps 5 and 6):
skip `"."` (`[46]`) and `".."` (`[46,46]`), frame every other entry
name, abort with -1 if a send fails, and after the last entry send the
zero-length end-of-list marker (whose send result the code ignores). -/
def sendEntries (c : Conn) (entries : List (List Nat)) : Conn × Int :=
  match entries with
  | [] => ((send_all c (beEncode 0)).1, 0)
  | e :: rest =>
    if e = [46] ∨ e = [46, 46] then sendEntries c rest
    else
      let r1 := send_all c (beEncode e.length)
      if r1.2 then
        let r2 := send_all r1.1 e
        if r2.2 then sendEntries r2.1 rest else (r2.1, -1)
      else (r1.1, -1)

/-- `handle_list(client_fd)` (session.c, current revision using
`opendir`/`readdir`).  `openDir p` is the entry-name sequence of the
directory at `p` in filesystem enumeration order (including `"."` and
`".."` as `readdir` reports them) when `opendir` succeeds, `none` when
it fails.  Note that, unlike the other handlers, a malformed path frame
is answered with a STATUS_ERROR byte. -/
def handle_list (env : Env) (cu : List Nat)
    (openDir : List Nat → Option (List (List Nat))) (c : Conn) : Conn × Int :=
  (recv_path_alloc c).elim ((send_all c [1]).1, -1) fun pc =>
    let expanded := expand_tilde env cu (cstr pc.1)
    (openDir expanded).elim ((send_all pc.2 [1]).1, -1) fun entries =>
      let r0 := send_all pc.2 [0]
      if r0.2 then sendEntries r0.1 entries else (r0.1, -1)

/-- The authentication store (session.c: `strncpy(current_username,
username, 255)` into the process-global 256-byte buffer, followed by a
forced NUL at index 255).  `strncpy` zero-pads when the source is
shorter, so the previous content `g0` of the global is overwritten
entirely: the new value is the first 255 bytes of the received C
string, independent of `g0`. -/
def auth_store (_g0 : List Nat) (payload : List Nat) : List Nat :=
  (cstr payload).take 255

/-- Filesystem collaborator bundle for a whole session. -/
structure Fs where
  openRead : List Nat → Option (List Nat)
  mkdirOk : List Nat → Bool
  openWrite : List Nat → Bool
  openDir : List Nat → Option (List (List Nat))

/-- `handle_unlocked_session(client_fd)` (session.c): receive the
username frame, store it in the shared `current_username` buffer (whose
previous value is `g0`), receive the mode byte (68 `D`, 85 `U`, 76 `L`)
and dispatch; any other mode byte yields -1 with nothing sent. -/
def handle_unlocked_session (env : Env) (fs : Fs) (g0 : List Nat)
    (c : Conn) : Conn × Int :=
  (recv_path_alloc c).elim (c, -1) fun pc =>
    let username := auth_store g0 pc.1
    (recv_exact pc.2 1).elim (pc.2, -1) fun bc =>
      let mode := bc.1.getD 0 0
      if mode = 68 then handle_download env username fs.openRead bc.2
      else if mode = 85 then
        let r := handle_upload env username fs.mkdirOk fs.openWrite bc.2
        (r.1, r.2.2)
      else if mode = 76 then handle_list env username fs.openDir bc.2
      else (bc.2, -1)

/-- The send-failure oracle of a fault-free connection. -/
def neverFail : Nat → Bool := fun _ => false

/-! ## Basic lemmas about the framing codec -/

theorem beEncode_length (n : Nat) : (beEncode n).length = 4 := rfl

theorem beDecode_beEncode (n : Nat) (h : n < 4294967296) :
    beDecode (beEncode n) = n := by
  simp only [beEncode, beDecode]
  omega

/-- Receiving a well-formed frame: the 4-byte header, then the whole
payload, leaving exactly the rest of the stream unread. -/
theorem recv_path_alloc_frame (p rest : List Nat) (s : List (List Nat))
    (f : Nat → Bool) (h1 : 0 < p.length) (h2 : p.length ≤ 4096) :
    recv_path_alloc ⟨beEncode p.length ++ (p ++ rest), s, f⟩ =
      some (p, ⟨rest, s, f⟩) := by
  have hdec : beDecode (beEncode p.length) = p.length :=
    beDecode_beEncode _ (by omega)
  have hge : ¬ ((beEncode p.length ++ (p ++ rest)).length < 4) := by
    simp [beEncode]
  have htake : (beEncode p.length ++ (p ++ rest)).take 4 = beEncode p.length :=
    List.take_left' rfl
  have hdrop : (beEncode p.length ++ (p ++ rest)).drop 4 = p ++ rest :=
    List.drop_left' rfl
  have h4 : recv_exact ⟨beEncode p.length ++ (p ++ rest), s, f⟩ 4 =
      some (beEncode p.length, ⟨p ++ rest, s, f⟩) := by
    simp only [recv_exact]
    rw [if_neg hge, htake, hdrop]
  have htake2 : (p ++ rest).take p.length = p := List.take_left' rfl
  have hdrop2 : (p ++ rest).drop p.length = rest := List.drop_left' rfl
  have hge2 : ¬ ((p ++ rest).length < p.length) := by simp
  simp only [recv_path_alloc, h4, Option.some_bind, hdec]
  rw [if_neg (by omega)]
  simp only [recv_exact]
  rw [if_neg hge2, htake2, hdrop2]

/-- C7: `recv_path_alloc` reads a 4-byte big-endian length `L` and
fails exactly when `L = 0`, `L > 4096`, or fewer than `L` payload bytes
arrive before the connection closes; otherwise it returns exactly the
`L` payload bytes. -/
theorem claim_C7_frame_read (a b c d : Nat) (rest : List Nat)
    (s : List (List Nat)) (f : Nat → Bool) :
    (recv_path_alloc ⟨a :: b :: c :: d :: rest, s, f⟩ = none ↔
      (beDecode [a, b, c, d] = 0 ∨ beDecode [a, b, c, d] > 4096 ∨
        rest.length < beDecode [a, b, c, d])) ∧
    (beDecode [a, b, c, d] ≠ 0 → beDecode [a, b, c, d] ≤ 4096 →
      beDecode [a, b, c, d] ≤ rest.length →
      recv_path_alloc ⟨a :: b :: c :: d :: rest, s, f⟩ =
        some (rest.take (beDecode [a, b, c, d]),
          ⟨rest.drop (beDecode [a, b, c, d]), s, f⟩) ∧
      (rest.take (beDecode [a, b, c, d])).length = beDecode [a, b, c, d]) := by
  have hhdr : recv_exact ⟨a :: b :: c :: d :: rest, s, f⟩ 4 =
      some ([a, b, c, d], ⟨rest, s, f⟩) := by
    simp [recv_exact]
  constructor
  · by_cases h0 : beDecode [a, b, c, d] = 0 ∨ beDecode [a, b, c, d] > 4096
    · simp only [recv_path_alloc, hhdr, Option.some_bind]
      simp [h0]
      tauto
    · simp only [recv_path_alloc, hhdr, Option.some_bind]
      rw [if_neg h0]
      simp only [recv_exact]
      by_cases hsh : rest.length < beDecode [a, b, c, d]
      · simp [hsh]
      · simp [hsh]
        omega
  · intro hne hle hsh
    simp only [recv_path_alloc, hhdr, Option.some_bind]
    rw [if_neg (by omega)]
    simp only [recv_exact]
    rw [if_neg (by omega)]
    exact ⟨rfl, by simp [List.length_take]; omega⟩

/-- Witness for C7 on the concrete frame `00 00 00 02 41 42 43`:
announced length 2, payload `41 42`, leftover `43`. -/
theorem claim_C7_frame_read_witness :
    recv_path_alloc ⟨[0, 0, 0, 2, 65, 66, 67], [], neverFail⟩ =
      some (([65, 66, 67] : List Nat).take (beDecode [0, 0, 0, 2]),
        ⟨([65, 66, 67] : List Nat).drop (beDecode [0, 0, 0, 2]), [], neverFail⟩) ∧
    (([65, 66, 67] : List Nat).take (beDecode [0, 0, 0, 2])).length =
      beDecode [0, 0, 0, 2] :=
  (claim_C7_frame_read 0 0 0 2 [65, 66, 67] [] neverFail).2
    (by decide) (by decide) (by decide)

/-! ## Tilde expansion (claims C5, C6) -/

/-- Unfolding of `expand_tilde` on `"~"` / `"~/..."` inputs: the home
directory is the first defined value among the identity-resolver entry
for the current username, `HOME`, and `"/root"`. -/
theorem expand_tilde_ownhome (env : Env) (cu rest : List Nat)
    (hshape : rest = [] ∨ rest.head? = some 47) :
    expand_tilde env cu (126 :: rest) =
      ((if cu ≠ [] then env.pwdb cu else none) <|> env.homeEnv).getD
        [47, 114, 111, 111, 116] ++ rest := by
  unfold expand_tilde
  rw [if_pos (show (126 :: rest).head? = some 126 from rfl)]
  simp only [List.tail_cons]
  rw [if_pos hshape]

/-- Unfolding of `expand_tilde` on `"~name..."` inputs. -/
theorem expand_tilde_user (env : Env) (cu rest : List Nat)
    (hne : rest ≠ []) (hhd : rest.head? ≠ some 47) :
    expand_tilde env cu (126 :: rest) =
      (if (rest.findIdx? (fun b => b == 47)).getD rest.length < 256 then
        (env.pwdb
            (rest.take ((rest.findIdx? (fun b => b == 47)).getD rest.length))).elim
          (126 :: rest)
          (fun h =>
            h ++ rest.drop ((rest.findIdx? (fun b => b == 47)).getD rest.length))
      else 126 :: rest) := by
  unfold expand_tilde
  rw [if_pos (show (126 :: rest).head? = some 126 from rfl)]
  simp only [List.tail_cons]
  rw [if_neg (not_or.mpr ⟨hne, hhd⟩)]

/-- C5: for `rawPath` equal to `"~"` or beginning with `"~/"`, the home
directory is resolved from the session's username hint via the identity
resolver, falling back to `HOME` when that lookup fails or the hint is
empty, and to `"/root"` when `HOME` is also unavailable; the result is
that home directory concatenated with the remainder of `rawPath` after
the leading `"~"`. -/
theorem claim_C5_tilde_own_home (env : Env) (cu rest : List Nat)
    (hshape : rest = [] ∨ rest.head? = some 47) :
    (∀ hm, cu ≠ [] → env.pwdb cu = some hm →
      expand_tilde env cu (126 :: rest) = hm ++ rest) ∧
    (∀ hm, cu = [] ∨ env.pwdb cu = none → env.homeEnv = some hm →
      expand_tilde env cu (126 :: rest) = hm ++ rest) ∧
    (cu = [] ∨ env.pwdb cu = none → env.homeEnv = none →
      expand_tilde env cu (126 :: rest) = [47, 114, 111, 111, 116] ++ rest) := by
  have hb := expand_tilde_ownhome env cu rest hshape
  refine ⟨?_, ?_, ?_⟩
  · intro hm hcu hpw
    rw [hb]
    simp [hcu, hpw]
  · intro hm hcuor hhome
    rw [hb]
    rcases hcuor with hcu | hpw
    · simp [hcu, hhome]
    · by_cases hcu : cu = []
      · simp [hcu, hhome]
      · simp [hcu, hpw, hhome]
  · intro hcuor hhome
    rw [hb]
    rcases hcuor with hcu | hpw
    · simp [hcu, hhome]
    · by_cases hcu : cu = []
      · simp [hcu, hhome]
      · simp [hcu, hpw, hhome]

/-- C6: for `rawPath` of the form `"~name"` or `"~name/..."` whose
identity-resolver lookup fails, `expand_tilde` returns the raw path
unchanged — no partial expansion and no hard failure. -/
theorem claim_C6_tilde_unknown_user (env : Env) (cu rest : List Nat)
    (hne : rest ≠ []) (hhd : rest.head? ≠ some 47)
    (hlook :
      env.pwdb
        (rest.take ((rest.findIdx? (fun b => b == 47)).getD rest.length)) =
        none) :
    expand_tilde env cu (126 :: rest) = 126 :: rest := by
  rw [expand_tilde_user env cu rest hne hhd]
  by_cases hu : (rest.findIdx? (fun b => b == 47)).getD rest.length < 256
  · simp [hu, hlook]
  · simp [hu]

/-- Test identity resolver: `alice` has home `/home/alice`, `bob` has
home `/home/bob`, everything else is unknown (all byte-encoded
ASCII). -/
def pwdbT : List Nat → Option (List Nat) := fun u =>
  if u = [97, 108, 105, 99, 101] then
    some [47, 104, 111, 109, 101, 47, 97, 108, 105, 99, 101]
  else if u = [98, 111, 98] then some [47, 104, 111, 109, 101, 47, 98, 111, 98]
  else none

/-- Test environment: the resolver above plus `HOME = "/h0"`. -/
def envT : Env := ⟨pwdbT, some [47, 104, 48]⟩

/-- Witness for C5: under `envT`, session hint `alice` resolving
`"~/x"` yields `/home/alice/x`. -/
theorem claim_C5_tilde_own_home_witness :
    expand_tilde envT [97, 108, 105, 99, 101] (126 :: [47, 120]) =
      [47, 104, 111, 109, 101, 47, 97, 108, 105, 99, 101] ++ [47, 120] :=
  (claim_C5_tilde_own_home envT [97, 108, 105, 99, 101] [47, 120]
      (Or.inr rfl)).1
    [47, 104, 111, 109, 101, 47, 97, 108, 105, 99, 101] (by decide) (by decide)

/-- Witness for C6: under `envT`, resolving `"~zz/y"` (unknown user
`zz`) returns the raw path unchanged. -/
theorem claim_C6_tilde_unknown_user_witness :
    expand_tilde envT [97, 108, 105, 99, 101] (126 :: [122, 122, 47, 121]) =
      126 :: [122, 122, 47, 121] :=
  claim_C6_tilde_unknown_user envT [97, 108, 105, 99, 101] [122, 122, 47, 121]
    (by decide) (by decide) (by decide)

/-! ## Download (claim C4) -/

/-- The flattened chunks of a file are the file itself. -/
theorem chunksBuf_flatten (l : List Nat) : (chunksBuf l).flatten = l := by
  by_cases h : l = []
  · rw [chunksBuf]
    simp [h]
  · have ih := chunksBuf_flatten (l.drop 4096)
    rw [chunksBuf]
    simp [h, ih]
termination_by l.length
decreasing_by
  have hp : 0 < l.length := List.length_pos.mpr h
  simp [List.length_drop]
  omega

/-- On a fault-free connection the streaming loop sends every chunk in
order and reports success. -/
theorem sendFileChunks_ok (chunks : List (List Nat)) (input : List Nat)
    (s : List (List Nat)) :
    sendFileChunks ⟨input, s, neverFail⟩ chunks =
      (⟨input, s ++ chunks, neverFail⟩, 0) := by
  induction chunks generalizing s with
  | nil => simp [sendFileChunks]
  | cons b rest ih => simp [sendFileChunks, send_all, neverFail, ih]

/-- C4: on a fault-free connection, download of a path whose resolved
file cannot be opened sends exactly one ERROR status byte and nothing
else; download of an openable file sends the OK status byte, one framed
string holding the basename of the resolved path, and then the file
bytes in BUFFER_SIZE chunks — flattening to exactly the file's
content. -/
theorem claim_C4_download (env : Env) (cu : List Nat)
    (openRead : List Nat → Option (List Nat)) (p rest contents : List Nat)
    (h1 : 0 < p.length) (h2 : p.length ≤ 4096) :
    (openRead (expand_tilde env cu (cstr p)) = none →
      handle_download env cu openRead
          ⟨beEncode p.length ++ (p ++ rest), [], neverFail⟩ =
        (⟨rest, [[1]], neverFail⟩, -1)) ∧
    (openRead (expand_tilde env cu (cstr p)) = some contents →
      (path_basename (expand_tilde env cu (cstr p))).length < 4096 →
      handle_download env cu openRead
          ⟨beEncode p.length ++ (p ++ rest), [], neverFail⟩ =
        (⟨rest,
          [[0], beEncode (path_basename (expand_tilde env cu (cstr p))).length,
            path_basename (expand_tilde env cu (cstr p))] ++ chunksBuf contents,
          neverFail⟩, 0) ∧
      ([[0], beEncode (path_basename (expand_tilde env cu (cstr p))).length,
          path_basename (expand_tilde env cu (cstr p))] ++
            chunksBuf contents).flatten =
        0 :: (beEncode (path_basename (expand_tilde env cu (cstr p))).length ++
          (path_basename (expand_tilde env cu (cstr p)) ++ contents))) := by
  have hframe := recv_path_alloc_frame p rest [] neverFail h1 h2
  constructor
  · intro hopen
    by_cases hname :
        4096 ≤ (path_basename (expand_tilde env cu (cstr p))).length
    · simp [handle_download, hframe, hname, send_all]
    · simp [handle_download, hframe, hname, hopen, send_all]
  · intro hopen hname
    constructor
    · simp [handle_download, hframe, hopen, send_all, neverFail,
        sendFileChunks_ok, Nat.not_le.mpr hname]
    · simp [chunksBuf_flatten]

/-- Test filesystem read collaborator: only `"/f"` is openable, with
content `0A 14 1E`. -/
def openReadT : List Nat → Option (List Nat) := fun p =>
  if p = [47, 102] then some [10, 20, 30] else none

/-- Witness for C4: downloading `"/f"` over a fault-free connection
sends OK, the framed basename `"f"`, then the three file bytes. -/
theorem claim_C4_download_witness :
    handle_download envT [] openReadT
        ⟨beEncode ([47, 102] : List Nat).length ++ ([47, 102] ++ []), [],
          neverFail⟩ =
      (⟨[],
        [[0], beEncode (path_basename (expand_tilde envT [] (cstr [47, 102]))).length,
          path_basename (expand_tilde envT [] (cstr [47, 102]))] ++
            chunksBuf [10, 20, 30],
        neverFail⟩, 0) ∧
    ([[0], beEncode (path_basename (expand_tilde envT [] (cstr [47, 102]))).length,
        path_basename (expand_tilde envT [] (cstr [47, 102]))] ++
          chunksBuf [10, 20, 30]).flatten =
      0 :: (beEncode (path_basename (expand_tilde envT [] (cstr [47, 102]))).length ++
        (path_basename (expand_tilde envT [] (cstr [47, 102])) ++ [10, 20, 30])) :=
  (claim_C4_download envT [] openReadT [47, 102] [] [10, 20, 30]
      (by decide) (by decide)).2 (by decide) (by decide)

/-! ## Directory listing (claim C1) -/

/-- On a fault-free connection the entry loop frames every entry other
than `"."` and `".."`, in order, and ends with the zero-length
end-of-list frame. -/
theorem sendEntries_ok (entries : List (List Nat)) (input : List Nat)
    (s : List (List Nat)) :
    sendEntries ⟨input, s, neverFail⟩ entries =
      (⟨input,
        s ++ ((entries.filter
            (fun e => decide ¬(e = [46] ∨ e = [46, 46]))).flatMap
              (fun e => [beEncode e.length, e]) ++ [beEncode 0]),
        neverFail⟩, 0) := by
  induction entries generalizing s with
  | nil => simp [sendEntries, send_all]
  | cons e restE ih =>
    by_cases hskip : e = [46] ∨ e = [46, 46]
    · rcases hskip with he | he <;> simp [sendEntries, he, ih, List.filter_cons]
    · have hn1 : ¬(e = [46]) := fun hx => hskip (Or.inl hx)
      have hn2 : ¬(e = [46, 46]) := fun hx => hskip (Or.inr hx)
      simp [sendEntries, hskip, send_all, neverFail, ih, List.filter_cons,
        hn1, hn2]

/-- Flattening the two-chunk frames of the entry loop gives the framed
byte strings laid end to end. -/
theorem flatten_frames (m : List (List Nat)) :
    (m.flatMap (fun e => [beEncode e.length, e])).flatten =
      m.flatMap (fun e => beEncode e.length ++ e) := by
  induction m with
  | nil => simp
  | cons e restE ih => simp [ih]

/-- C1: on a fault-free connection, listing a directory that can be
opened sends the OK status byte, then one framed string per entry other
than `"."` and `".."` in enumeration order, then the zero-length
end-of-list frame `00 00 00 00`. -/
theorem claim_C1_list_frames (env : Env) (cu : List Nat)
    (openDir : List Nat → Option (List (List Nat)))
    (p rest : List Nat) (entries : List (List Nat))
    (h1 : 0 < p.length) (h2 : p.length ≤ 4096)
    (hopen : openDir (expand_tilde env cu (cstr p)) = some entries) :
    handle_list env cu openDir
        ⟨beEncode p.length ++ (p ++ rest), [], neverFail⟩ =
      (⟨rest,
        [[0]] ++ ((entries.filter
            (fun e => decide ¬(e = [46] ∨ e = [46, 46]))).flatMap
              (fun e => [beEncode e.length, e]) ++ [beEncode 0]),
        neverFail⟩, 0) ∧
    (handle_list env cu openDir
        ⟨beEncode p.length ++ (p ++ rest), [], neverFail⟩).1.sent.flatten =
      0 :: ((entries.filter
          (fun e => decide ¬(e = [46] ∨ e = [46, 46]))).flatMap
            (fun e => beEncode e.length ++ e) ++ beEncode 0) ∧
    beEncode 0 = [0, 0, 0, 0] := by
  have hframe := recv_path_alloc_frame p rest [] neverFail h1 h2
  have hmain :
      handle_list env cu openDir
          ⟨beEncode p.length ++ (p ++ rest), [], neverFail⟩ =
        (⟨rest,
          [[0]] ++ ((entries.filter
              (fun e => decide ¬(e = [46] ∨ e = [46, 46]))).flatMap
                (fun e => [beEncode e.length, e]) ++ [beEncode 0]),
          neverFail⟩, 0) := by
    simp [handle_list, hframe, hopen, send_all, neverFail, sendEntries_ok]
  refine ⟨hmain, ?_, rfl⟩
  rw [hmain]
  simp [flatten_frames]

/-- Test directory collaborator: `"/d"` enumerates
`[".", "a.txt", "..", "b"]`; everything else fails to open. -/
def openDirT : List Nat → Option (List (List Nat)) := fun p =>
  if p = [47, 100] then
    some [[46], [97, 46, 116, 120, 116], [46, 46], [98]]
  else none

/-- Witness for C1: listing `"/d"` sends OK, the frames for `"a.txt"`
and `"b"` in enumeration order, then the zero-length terminator. -/
theorem claim_C1_list_frames_witness :
    handle_list envT [] openDirT
        ⟨beEncode ([47, 100] : List Nat).length ++ ([47, 100] ++ []), [],
          neverFail⟩ =
      (⟨[],
        [[0]] ++ ((([[46], [97, 46, 116, 120, 116], [46, 46],
            [98]] : List (List Nat)).filter
            (fun e => decide ¬(e = [46] ∨ e = [46, 46]))).flatMap
              (fun e => [beEncode e.length, e]) ++ [beEncode 0]),
        neverFail⟩, 0) ∧
    (handle_list envT [] openDirT
        ⟨beEncode ([47, 100] : List Nat).length ++ ([47, 100] ++ []), [],
          neverFail⟩).1.sent.flatten =
      0 :: ((([[46], [97, 46, 116, 120, 116], [46, 46],
          [98]] : List (List Nat)).filter
          (fun e => decide ¬(e = [46] ∨ e = [46, 46]))).flatMap
            (fun e => beEncode e.length ++ e) ++ beEncode 0) ∧
    beEncode 0 = [0, 0, 0, 0] :=
  claim_C1_list_frames envT [] openDirT [47, 100] []
    [[46], [97, 46, 116, 120, 116], [46, 46], [98]]
    (by decide) (by decide) (by decide)

/-! ## Upload directory-creation failure (claim C2) and malformed
frames (claim C3) -/

/-- Test filesystem bundle: `openReadT`/`openDirT` from above, with
`mkdir` and `fopen(.., "wb")` always succeeding. -/
def fsT : Fs := ⟨openReadT, fun _ => true, fun _ => true, openDirT⟩

/-- C2: at the concrete upload of target `"/a/b"` with a failing
`mkdir` collaborator, `handle_upload` closes with result -1 and with no
status byte (nothing at all) sent — although the repository's own
documentation promises a STATUS_ERROR byte on directory-creation
failure. -/
theorem claim_C2_upload_mkdir_silent_close :
    (handle_upload envT [] (fun _ => false) (fun _ => true)
        ⟨beEncode ([47, 97, 47, 98] : List Nat).length ++
          ([47, 97, 47, 98] ++ [77]), [], neverFail⟩).1.sent = [] ∧
    (handle_upload envT [] (fun _ => false) (fun _ => true)
        ⟨beEncode ([47, 97, 47, 98] : List Nat).length ++
          ([47, 97, 47, 98] ++ [77]), [], neverFail⟩).2 = (none, -1) := by
  decide

/-- Counterexample to C3: on a zero-length (malformed) frame the list
operation does write a status byte — it sends STATUS_ERROR. -/
theorem claim_C3_list_error_on_malformed :
    (handle_list envT [] openDirT ⟨[0, 0, 0, 0], [], neverFail⟩).1.sent =
      [[1]] := by
  decide

/-- C3 (amended): on a malformed frame the authentication, download and
upload paths terminate immediately with nothing written; the list path
instead sends exactly the ERROR status byte before terminating. -/
theorem claim_C3_malformed_frame_behavior (env : Env) (cu : List Nat)
    (fs : Fs) (g0 : List Nat) (c : Conn)
    (hmal : recv_path_alloc c = none) :
    (handle_download env cu fs.openRead c).1.sent = c.sent ∧
    (handle_download env cu fs.openRead c).2 = -1 ∧
    (handle_upload env cu fs.mkdirOk fs.openWrite c).1.sent = c.sent ∧
    (handle_upload env cu fs.mkdirOk fs.openWrite c).2 = (none, -1) ∧
    (handle_unlocked_session env fs g0 c).1.sent = c.sent ∧
    (handle_unlocked_session env fs g0 c).2 = -1 ∧
    (handle_list env cu fs.openDir c).1.sent = c.sent ++ [[1]] ∧
    (handle_list env cu fs.openDir c).2 = -1 := by
  refine ⟨?_, ?_, ?_, ?_, ?_, ?_, ?_, ?_⟩ <;>
    simp [handle_download, handle_upload, handle_unlocked_session,
      handle_list, hmal, send_all]

/-- Witness for the amended C3 at the concrete zero-length frame. -/
theorem claim_C3_malformed_frame_behavior_witness :
    (handle_download envT [] fsT.openRead
        ⟨[0, 0, 0, 0], [], neverFail⟩).1.sent = [] ∧
    (handle_download envT [] fsT.openRead
        ⟨[0, 0, 0, 0], [], neverFail⟩).2 = -1 ∧
    (handle_upload envT [] fsT.mkdirOk fsT.openWrite
        ⟨[0, 0, 0, 0], [], neverFail⟩).1.sent = [] ∧
    (handle_upload envT [] fsT.mkdirOk fsT.openWrite
        ⟨[0, 0, 0, 0], [], neverFail⟩).2 = (none, -1) ∧
    (handle_unlocked_session envT fsT []
        ⟨[0, 0, 0, 0], [], neverFail⟩).1.sent = [] ∧
    (handle_unlocked_session envT fsT []
        ⟨[0, 0, 0, 0], [], neverFail⟩).2 = -1 ∧
    (handle_list envT [] fsT.openDir
        ⟨[0, 0, 0, 0], [], neverFail⟩).1.sent = [] ++ [[1]] ∧
    (handle_list envT [] fsT.openDir
        ⟨[0, 0, 0, 0], [], neverFail⟩).2 = -1 :=
  claim_C3_malformed_frame_behavior envT [] fsT []
    ⟨[0, 0, 0, 0], [], neverFail⟩ rfl

/-! ## Write-failure behavior (claim C8) -/

/-- Receiving a frame never changes the sent trace or the failure
oracle of the connection. -/
theorem recv_path_alloc_state (c : Conn) (p : List Nat) (c1 : Conn)
    (h : recv_path_alloc c = some (p, c1)) :
    c1.sent = c.sent ∧ c1.failAt = c.failAt := by
  simp only [recv_path_alloc, recv_exact] at h
  by_cases h4 : c.input.length < 4
  · simp [h4] at h
  · simp only [h4, if_false, Option.some_bind] at h
    by_cases hL : beDecode (c.input.take 4) = 0 ∨ beDecode (c.input.take 4) > 4096
    · simp [hL] at h
    · simp only [hL, if_false] at h
      by_cases hsh : (c.input.drop 4).length < beDecode (c.input.take 4)
      · exfalso
        simp [hsh] at h
        obtain ⟨hle, _⟩ := h
        rw [List.length_drop] at hsh
        omega
      · simp only [hsh, if_false, Option.some.injEq, Prod.mk.injEq] at h
        obtain ⟨h1, h2⟩ := h
        rw [← h2]
        exact ⟨rfl, rfl⟩

/-- After a failed send the download streaming loop attempts nothing
further: every attempted send but the last one succeeded. -/
theorem sendFileChunks_stop (chunks : List (List Nat)) :
    ∀ (c : Conn) (k : Nat), c.sent.length ≤ k →
      k + 1 < ((sendFileChunks c chunks).1).sent.length →
      c.failAt k = false := by
  induction chunks with
  | nil =>
    intro c k hk hlt
    simp [sendFileChunks] at hlt
    omega
  | cons b restC ih =>
    intro c k hk hlt
    by_cases hfa : c.failAt c.sent.length
    · simp [sendFileChunks, send_all, hfa] at hlt
      omega
    · have hfa2 : c.failAt c.sent.length = false := by
        revert hfa
        cases c.failAt c.sent.length <;> simp
      simp only [sendFileChunks, send_all, hfa2, Bool.not_false, if_true] at hlt
      rcases Nat.lt_or_ge k (c.sent.length + 1) with hk2 | hk2
      · have hke : k = c.sent.length := by omega
        rw [hke]
        exact hfa2
      · have := ih { c with sent := c.sent ++ [b] } k (by simp; omega) hlt
        simpa using this

/-- After a failed send the list entry loop attempts nothing further:
every attempted send but the last one succeeded. -/
theorem sendEntries_stop (entries : List (List Nat)) :
    ∀ (c : Conn) (k : Nat), c.sent.length ≤ k →
      k + 1 < ((sendEntries c entries).1).sent.length →
      c.failAt k = false := by
  induction entries with
  | nil =>
    intro c k hk hlt
    simp [sendEntries, send_all] at hlt
    omega
  | cons e restE ih =>
    intro c k hk hlt
    by_cases hskip : e = [46] ∨ e = [46, 46]
    · rw [sendEntries, if_pos hskip] at hlt
      exact ih c k hk hlt
    · rw [sendEntries, if_neg hskip] at hlt
      cases hfa : c.failAt c.sent.length with
      | true =>
        simp [send_all, hfa] at hlt
        omega
      | false =>
        cases hfb : c.failAt (c.sent.length + 1) with
        | true =>
          simp [send_all, hfa, hfb] at hlt
          have hke : k = c.sent.length := by omega
          rw [hke]
          exact hfa
        | false =>
          rcases Nat.lt_or_ge k (c.sent.length + 1) with hk2 | hk2
          · have hke : k = c.sent.length := by omega
            rw [hke]
            exact hfa
          · rcases Nat.lt_or_ge k (c.sent.length + 2) with hk3 | hk3
            · have hke : k = c.sent.length + 1 := by omega
              rw [hke]
              exact hfb
            · simp [send_all, hfa, hfb] at hlt
              have := ih
                { c with sent := c.sent ++ [beEncode e.length, e] } k
                (by simp; omega) (by simpa using hlt)
              simpa using this

/-- In the success path the download handler is exactly the streaming
loop applied to the status chunk, the two basename-frame chunks, and
the file chunks. -/
theorem download_ok_as_chunks (env : Env) (cu : List Nat)
    (openRead : List Nat → Option (List Nat)) (c c1 : Conn)
    (p contents : List Nat)
    (hrec : recv_path_alloc c = some (p, c1))
    (hname : ¬ 4096 ≤ (path_basename (expand_tilde env cu (cstr p))).length)
    (hopen : openRead (expand_tilde env cu (cstr p)) = some contents) :
    handle_download env cu openRead c =
      sendFileChunks c1
        ([0] :: beEncode (path_basename (expand_tilde env cu (cstr p))).length ::
          path_basename (expand_tilde env cu (cstr p)) :: chunksBuf contents) := by
  cases h0 : c1.failAt c1.sent.length with
  | true =>
    simp [handle_download, hrec, hname, hopen, send_all, h0, sendFileChunks]
  | false =>
    cases h1 : c1.failAt (c1.sent.length + 1) with
    | true =>
      simp [handle_download, hrec, hname, hopen, send_all, h0, h1,
        sendFileChunks]
    | false =>
      cases h2 : c1.failAt (c1.sent.length + 2) with
      | true =>
        simp [handle_download, hrec, hname, hopen, send_all, h0, h1, h2,
          sendFileChunks]
      | false =>
        simp [handle_download, hrec, hname, hopen, send_all, h0, h1, h2,
          sendFileChunks]

/-- Download attempts no send after a failed one. -/
theorem handle_download_stop (env : Env) (cu : List Nat)
    (openRead : List Nat → Option (List Nat)) (c : Conn) (k : Nat)
    (hk : c.sent.length ≤ k)
    (hlt : k + 1 < ((handle_download env cu openRead c).1).sent.length) :
    c.failAt k = false := by
  rcases hrec : recv_path_alloc c with _ | ⟨p, c1⟩
  · simp [handle_download, hrec] at hlt
    omega
  · have hst := recv_path_alloc_state c p c1 hrec
    by_cases hname : 4096 ≤ (path_basename (expand_tilde env cu (cstr p))).length
    · simp [handle_download, hrec, hname, send_all, hst.1] at hlt
      omega
    · rcases hopen : openRead (expand_tilde env cu (cstr p)) with _ | contents
      · simp [handle_download, hrec, hname, hopen, send_all, hst.1] at hlt
        omega
      · rw [download_ok_as_chunks env cu openRead c c1 p contents hrec hname
          hopen] at hlt
        have hc := sendFileChunks_stop _ c1 k (by rw [hst.1]; exact hk) hlt
        rw [hst.2] at hc
        exact hc

/-- Listing attempts no send after a failed one. -/
theorem handle_list_stop (env : Env) (cu : List Nat)
    (openDir : List Nat → Option (List (List Nat))) (c : Conn) (k : Nat)
    (hk : c.sent.length ≤ k)
    (hlt : k + 1 < ((handle_list env cu openDir c).1).sent.length) :
    c.failAt k = false := by
  rcases hrec : recv_path_alloc c with _ | ⟨p, c1⟩
  · simp [handle_list, hrec, send_all] at hlt
    omega
  · have hst := recv_path_alloc_state c p c1 hrec
    rcases hopen : openDir (expand_tilde env cu (cstr p)) with _ | entries
    · simp [handle_list, hrec, hopen, send_all, hst.1] at hlt
      omega
    · cases hfa : c1.failAt c1.sent.length with
      | true =>
        have hfa2 : c1.failAt c.sent.length = true := by
          rw [← hst.1]
          exact hfa
        simp [handle_list, hrec, hopen, send_all, hfa2, hst.1] at hlt
        omega
      | false =>
        simp [handle_list, hrec, hopen, send_all, hfa] at hlt
        rcases Nat.lt_or_ge k (c.sent.length + 1) with hk2 | hk2
        · have hke : k = c.sent.length := by omega
          have hcc : c.failAt c.sent.length = false := by
            rw [← hst.2, ← hst.1]
            exact hfa
          rw [hke]
          exact hcc
        · have hc := sendEntries_stop entries
            ⟨c1.input, c1.sent ++ [[0]], c1.failAt⟩ k
            (by simp [hst.1]; omega) (by simpa using hlt)
          rw [← hst.2]
          simpa using hc

/-- The upload handler ignores the result of its status-byte send: for
every failure oracle it consumes the whole data phase and succeeds. -/
theorem handle_upload_runs_data_phase (env : Env) (cu : List Nat)
    (mk ow : List Nat → Bool) (p rest : List Nat) (s : List (List Nat))
    (f : Nat → Bool) (h1 : 0 < p.length) (h2 : p.length ≤ 4096)
    (hmk : ensure_parent_dirs mk (expand_tilde env cu (cstr p)) = true)
    (how : ow (expand_tilde env cu (cstr p)) = true) :
    handle_upload env cu mk ow ⟨beEncode p.length ++ (p ++ rest), s, f⟩ =
      (⟨[], s ++ [[0]], f⟩, some rest, 0) := by
  have hframe := recv_path_alloc_frame p rest s f h1 h2
  simp [handle_upload, hframe, hmk, how, send_all]

/-- Counterexample to C8: with an oracle on which every send fails, the
upload handler still attempts (and ignores) the OK status write and
then goes on to read the client's data phase `41 42`, writes it to the
file, and reports success. -/
theorem claim_C8_upload_reads_after_failed_status :
    (handle_upload envT [] (fun _ => true) (fun _ => true)
        ⟨beEncode ([47, 102] : List Nat).length ++ ([47, 102] ++ [65, 66]), [],
          fun _ => true⟩).1.sent = [[0]] ∧
    (handle_upload envT [] (fun _ => true) (fun _ => true)
        ⟨beEncode ([47, 102] : List Nat).length ++ ([47, 102] ++ [65, 66]), [],
          fun _ => true⟩).2 = (some [65, 66], 0) := by
  decide

/-- C8 (amended): after a failed socket write, download and list
attempt no further send and terminate; upload however never checks the
write of its OK status byte — for every failure oracle it proceeds to
read the client's whole data phase and reports success. -/
theorem claim_C8_after_write_failure :
    (∀ (env : Env) (cu : List Nat) (openRead : List Nat → Option (List Nat))
        (c : Conn) (k : Nat), c.sent.length ≤ k →
        k + 1 < ((handle_download env cu openRead c).1).sent.length →
        c.failAt k = false) ∧
    (∀ (env : Env) (cu : List Nat)
        (openDir : List Nat → Option (List (List Nat))) (c : Conn) (k : Nat),
        c.sent.length ≤ k →
        k + 1 < ((handle_list env cu openDir c).1).sent.length →
        c.failAt k = false) ∧
    (∀ (env : Env) (cu : List Nat) (mk ow : List Nat → Bool)
        (p rest : List Nat) (s : List (List Nat)) (f : Nat → Bool),
        0 < p.length → p.length ≤ 4096 →
        ensure_parent_dirs mk (expand_tilde env cu (cstr p)) = true →
        ow (expand_tilde env cu (cstr p)) = true →
        handle_upload env cu mk ow ⟨beEncode p.length ++ (p ++ rest), s, f⟩ =
          (⟨[], s ++ [[0]], f⟩, some rest, 0)) :=
  ⟨handle_download_stop, handle_list_stop, handle_upload_runs_data_phase⟩

/-- Witness for the amended C8: a fault-free listing of `"/d"` attempts
six sends, so every send index below the last is reported successful;
and a concrete upload on an always-failing oracle still consumes its
data phase. -/
theorem claim_C8_after_write_failure_witness :
    neverFail 2 = false ∧
    handle_upload envT [] (fun _ => true) (fun _ => true)
        ⟨beEncode ([47, 102] : List Nat).length ++ ([47, 102] ++ [65]), [],
          fun _ => true⟩ =
      (⟨[], [] ++ [[0]], fun _ => true⟩, some [65], 0) :=
  ⟨claim_C8_after_write_failure.2.1 envT [] openDirT
      ⟨beEncode ([47, 100] : List Nat).length ++ ([47, 100] ++ []), [],
        neverFail⟩ 2 (by decide) (by decide),
   claim_C8_after_write_failure.2.2 envT [] (fun _ => true) (fun _ => true)
      [47, 102] [65] [] (fun _ => true) (by decide) (by decide) (by decide)
      (by decide)⟩

/-! ## Username hint storage (claim C9) and NUL truncation (claim C10) -/

/-- Counterexample to C9: the username hint lives in one process-global
buffer (`current_username`), so the authentication step of a second
session (storing `bob`) changes the home directory that a first
session's `"~"` (byte 126) resolves to — the sessions observe each
other's hint through the shared global. -/
theorem claim_C9_shared_hint_observed :
    expand_tilde envT
        (auth_store (auth_store [] [97, 108, 105, 99, 101]) [98, 111, 98])
        [126] ≠
      expand_tilde envT (auth_store [] [97, 108, 105, 99, 101]) [126] := by
  decide

/-- C9 (amended): `strncpy` zero-padding makes every authentication
step overwrite the shared buffer completely, so a session's behavior
never depends on the hint left by an earlier session, and after its own
authentication frame a session resolves paths with exactly its own
(truncated) hint. -/
theorem claim_C9_session_hint :
    (∀ (env : Env) (fs : Fs) (g0 g1 : List Nat) (c : Conn),
      handle_unlocked_session env fs g0 c =
        handle_unlocked_session env fs g1 c) ∧
    (∀ (env : Env) (fs : Fs) (g0 : List Nat) (p rest : List Nat)
        (s : List (List Nat)) (f : Nat → Bool),
      0 < p.length → p.length ≤ 4096 →
      handle_unlocked_session env fs g0
          ⟨beEncode p.length ++ (p ++ (68 :: rest)), s, f⟩ =
        handle_download env ((cstr p).take 255) fs.openRead
          ⟨rest, s, f⟩) := by
  constructor
  · intro env fs g0 g1 c
    rfl
  · intro env fs g0 p rest s f h1 h2
    have hframe := recv_path_alloc_frame p (68 :: rest) s f h1 h2
    have hmode : recv_exact ⟨68 :: rest, s, f⟩ 1 = some ([68], ⟨rest, s, f⟩) := by
      simp [recv_exact]
    simp [handle_unlocked_session, hframe, hmode, auth_store]

/-- Witness for the amended C9: the same session bytes behave
identically for two different prior values of the shared buffer, and a
session authenticating as `"a"` then downloading dispatches with its
own hint. -/
theorem claim_C9_session_hint_witness :
    handle_unlocked_session envT fsT [5] ⟨[9], [], neverFail⟩ =
      handle_unlocked_session envT fsT [7] ⟨[9], [], neverFail⟩ ∧
    handle_unlocked_session envT fsT []
        ⟨beEncode ([97] : List Nat).length ++
          ([97] ++ (68 :: [0, 0, 0, 1, 47])), [], neverFail⟩ =
      handle_download envT ((cstr [97]).take 255) fsT.openRead
        ⟨[0, 0, 0, 1, 47], [], neverFail⟩ :=
  ⟨claim_C9_session_hint.1 envT fsT [5] [7] ⟨[9], [], neverFail⟩,
   claim_C9_session_hint.2 envT fsT [] [97] [0, 0, 0, 1, 47] [] neverFail
     (by decide) (by decide)⟩

/-- C10: a frame whose payload contains a NUL is read from the wire in
full (the stream resumes exactly after the payload), but every use of
the payload — username hint or path — depends only on the prefix
before the first NUL: replacing the payload by any other payload with
the same NUL-prefix leaves each operation's behavior unchanged. -/
theorem claim_C10_nul_truncation (env : Env) (fs : Fs) (g0 : List Nat)
    (p q rest : List Nat) (s : List (List Nat)) (f : Nat → Bool)
    (hp1 : 0 < p.length) (hp2 : p.length ≤ 4096)
    (hq1 : 0 < q.length) (hq2 : q.length ≤ 4096)
    (hcs : cstr p = cstr q) :
    recv_path_alloc ⟨beEncode p.length ++ (p ++ rest), s, f⟩ =
      some (p, ⟨rest, s, f⟩) ∧
    (∀ cu, handle_download env cu fs.openRead
        ⟨beEncode p.length ++ (p ++ rest), s, f⟩ =
      handle_download env cu fs.openRead
        ⟨beEncode q.length ++ (q ++ rest), s, f⟩) ∧
    (∀ cu, handle_upload env cu fs.mkdirOk fs.openWrite
        ⟨beEncode p.length ++ (p ++ rest), s, f⟩ =
      handle_upload env cu fs.mkdirOk fs.openWrite
        ⟨beEncode q.length ++ (q ++ rest), s, f⟩) ∧
    (∀ cu, handle_list env cu fs.openDir
        ⟨beEncode p.length ++ (p ++ rest), s, f⟩ =
      handle_list env cu fs.openDir
        ⟨beEncode q.length ++ (q ++ rest), s, f⟩) ∧
    handle_unlocked_session env fs g0
        ⟨beEncode p.length ++ (p ++ rest), s, f⟩ =
      handle_unlocked_session env fs g0
        ⟨beEncode q.length ++ (q ++ rest), s, f⟩ := by
  have hfp := recv_path_alloc_frame p rest s f hp1 hp2
  have hfq := recv_path_alloc_frame q rest s f hq1 hq2
  refine ⟨hfp, ?_, ?_, ?_, ?_⟩
  · intro cu
    simp only [handle_download, hfp, hfq, Option.elim_some]
    rw [hcs]
  · intro cu
    simp only [handle_upload, hfp, hfq, Option.elim_some]
    rw [hcs]
  · intro cu
    simp only [handle_list, hfp, hfq, Option.elim_some]
    rw [hcs]
  · simp only [handle_unlocked_session, hfp, hfq, Option.elim_some,
      auth_store]
    rw [hcs]

/-- Witness for C10: the payloads `61 00 62` (`"a\0b"`) and `61`
(`"a"`) have the same NUL-prefix and give identical download behavior,
while the former's extra bytes are still consumed from the wire. -/
theorem claim_C10_nul_truncation_witness :
    recv_path_alloc ⟨beEncode ([97, 0, 98] : List Nat).length ++
        ([97, 0, 98] ++ [7]), [], neverFail⟩ =
      some ([97, 0, 98], ⟨[7], [], neverFail⟩) ∧
    handle_download envT [] fsT.openRead
        ⟨beEncode ([97, 0, 98] : List Nat).length ++ ([97, 0, 98] ++ [7]), [],
          neverFail⟩ =
      handle_download envT [] fsT.openRead
        ⟨beEncode ([97] : List Nat).length ++ ([97] ++ [7]), [], neverFail⟩ :=
  ⟨(claim_C10_nul_truncation envT fsT [] [97, 0, 98] [97] [7] [] neverFail
      (by decide) (by decide) (by decide) (by decide) (by decide)).1,
   (claim_C10_nul_truncation envT fsT [] [97, 0, 98] [97] [7] [] neverFail
      (by decide) (by decide) (by decide) (by decide) (by decide)).2.1 []⟩

end PAP
